import Mathlib

/-!
Verification of the `not-rlua` Lua-bridge crate (`src/lib.rs`) via a shallow
embedding in Lean.  Each definition mirrors one Rust function (or the Lua
bootstrap chunk `LUA_FUNC_SHIM`); the theorems at the end of the file settle
the specification claims against these definitions.
-/

namespace NotRlua

/-- A Lua value, as far as the bridge's calling convention is concerned. -/
inductive LuaVal
  | nil
  | boolV (b : Bool)
  | str (s : String)
  | num (n : Int)
deriving DecidableEq, Repr

/-- Model of a boxed Rust error (`Box<Error>`): all the bridge ever reads
from it is `description()`. -/
structure LErr where
  description : String
deriving DecidableEq, Repr

/-- The last `n` elements of a list (the top `n` values of a Lua stack whose
top is the list's last element). -/
def lastN (l : List LuaVal) (n : Nat) : List LuaVal :=
  l.drop (l.length - n)

/-- Model of `RumLua::lua_func_wrapper` (lib.rs:219-244), at the level of the
Lua values the trampoline returns to the caller.  The native callback has
already pushed `pushed` values onto the stack (its stack effect) and returned
`res : Result<isize, Box<Error>>`.
* `Ok n`: the code pushes `true` and rotates it beneath the top `n` values
  (`state.rotate(-(n)-1, 1)`), then returns `n+1`, so Lua hands the caller
  the top `n+1` values: `true` followed by the last `n` pushed values.
* `Err e`: the code pushes `false` and `e.description()` and returns `2`, so
  the caller receives exactly `[false, description]`; whatever partial values
  the callback pushed lie below the returned window and are discarded by the
  engine. -/
def lua_func_wrapper (pushed : List LuaVal) (res : Except LErr Nat) : List LuaVal :=
  match res with
  | .ok n => .boolV true :: lastN pushed n
  | .error e => [.boolV false, .str e.description]

/-- Lua truthiness: `false` and `nil` are falsy, everything else truthy. -/
def truthy : LuaVal → Bool
  | .nil => false
  | .boolV b => b
  | _ => true

/-- Outcome of a script-level call: a normal return of values, or a raised
error carrying an error object. -/
inductive ScriptOutcome
  | values (vs : List LuaVal)
  | raised (errObj : LuaVal)
deriving DecidableEq, Repr

/-- Model of the `check` helper of the bootstrap chunk `LUA_FUNC_SHIM`
(lib.rs:50-64):

    local function check(ok, ...)
        if ok then return ...
        else local msg = ...
             error("Calling "..tostring(fname)..":\n"..msg, 2)
        end
    end

`where2` is the position prefix Lua's `error` prepends for stack level 2.
Because `return check(rust_f(...))` is a tail call, level 2 is the *caller*
of the wrapped function; when that caller is a C function (e.g. `pcall`),
the prefix is the empty string.  The model returns `none` for argument
shapes the shim would crash on (no arguments, or a non-string message,
where the `..` concatenation itself errors); the trampoline never produces
those shapes. -/
def shimCheck (fname : String) (where2 : String) (vals : List LuaVal) :
    Option ScriptOutcome :=
  match vals with
  | [] => none
  | v :: rest =>
    if truthy v then some (.values rest)
    else
      match rest with
      | .str m :: _ =>
        some (.raised (.str (where2 ++ "Calling " ++ fname ++ ":\n" ++ m)))
      | _ => none

/-- The script-visible callable produced by `RumLua::_push_closure`
(lib.rs:246-259): the shim's `f(...) = check(rust_f(...))`, where `rust_f`
is the trampoline `lua_func_wrapper` around the native callback. -/
def wrappedCall (fname : String) (where2 : String) (pushed : List LuaVal)
    (res : Except LErr Nat) : Option ScriptOutcome :=
  shimCheck fname where2 (lua_func_wrapper pushed res)

/-- Lua `pcall` applied to an outcome: `(true, results...)` on a normal
return, `(false, errObj)` on a raised error. -/
def pcallValues : Option ScriptOutcome → Option (List LuaVal)
  | some (.values vs) => some (.boolV true :: vs)
  | some (.raised e) => some [.boolV false, e]
  | none => none

/-! ### Small list facts used by the state-model proofs -/

theorem get?_concat_length {β : Type} (l : List β) (a : β) :
    (l ++ [a]).get? l.length = some a := by
  induction l with
  | nil => rfl
  | cons x xs ih => simp [ih]

theorem get?_append_left {β : Type} (l1 l2 : List β) (n : Nat)
    (h : n < l1.length) : (l1 ++ l2).get? n = l1.get? n := by
  induction l1 generalizing n with
  | nil => simp at h
  | cons x xs ih =>
    cases n with
    | zero => rfl
    | succ j => simpa using ih j (by simpa using h)

theorem get?_set_self {β : Type} (l : List β) (i : Nat) (a : β)
    (h : i < l.length) : (l.set i a).get? i = some a := by
  induction l generalizing i with
  | nil => simp at h
  | cons x xs ih =>
    cases i with
    | zero => rfl
    | succ j => simpa using ih j (by simpa using h)

theorem set_get?_self {β : Type} (l : List β) (i : Nat) (a : β)
    (h : l.get? i = some a) : l.set i a = l := by
  induction l generalizing i with
  | nil => simp at h
  | cons x xs ih =>
    cases i with
    | zero => simp at h; simp [h]
    | succ j => simp [ih j (by simpa using h)]

/-! ### The bridge state: type registry, boundary slots, shared heap

The Rust side stores each object behind `LuaPtr<T> = Rc<RefCell<T>>`; the
model gives every such cell an address into a heap.  A `LuaPtr` is then just
its address — two handles share the underlying object iff their addresses
are equal, and `Rc`'s strong count lives in a side table `rc`.  When the
count reaches zero the object is deallocated (heap entry set to `none`) and
its destructor runs (`dropcount` increments, mirroring the `TestDrop`
counter of the repository's tests).  Rust `TypeId`s are abstract tags. -/

abbrev TypeId := Nat

/-- Model of `LuaPtr<T>` (lib.rs:24-46): a shared handle, identified by the
address of its `Rc<RefCell<T>>` allocation. -/
structure LuaPtr where
  addr : Nat
deriving DecidableEq, Repr

/-- The payload a boundary userdata stores: `Box<Any>` holding a
`LuaPtr<T>`, modelled as the dynamic `TypeId` of `T` plus the handle. -/
structure ErasedBox where
  dynId : TypeId
  ptr : LuaPtr
deriving DecidableEq, Repr

/-- A boundary userdata: its attached metatable name (set by
`set_metatable_from_registry`) and its memory, which `push` initialises to
`Some(Box::new(ptr.clone()))` and `generic_gc` later swaps to `None`. -/
structure Slot where
  mt : Option String
  content : Option ErasedBox
deriving DecidableEq, Repr

/-- Model of the `RumLua` bridge state (lib.rs:67-73) together with the
engine-side pieces the claims need: the two registry hash maps, the list of
boundary userdata (indexed by stack position, 0-based), and the shared heap
with its reference counts. -/
structure RumState (α : Type) where
  typesStrToId : List (String × TypeId)
  typesIdToStr : List (TypeId × String)
  slots : List Slot
  rc : List Nat
  heap : List (Option α)
  dropcount : Nat
deriving DecidableEq

/-- Association-list lookup, modelling `HashMap` lookup / `contains_key`. -/
def lookupA {κ ν : Type} [DecidableEq κ] : List (κ × ν) → κ → Option ν
  | [], _ => none
  | (k, v) :: rest, k2 => if k = k2 then some v else lookupA rest k2

/-- Association-list insert, modelling `HashMap::insert` (replaces any
existing binding of the key). -/
def insertA {κ ν : Type} [DecidableEq κ] : List (κ × ν) → κ → ν → List (κ × ν)
  | [], k, v => [(k, v)]
  | (k1, v1) :: rest, k, v =>
    if k1 = k then (k, v) :: rest else (k1, v1) :: insertA rest k v

theorem lookupA_insertA_self {κ ν : Type} [DecidableEq κ]
    (l : List (κ × ν)) (k : κ) (v : ν) :
    lookupA (insertA l k v) k = some v := by
  induction l with
  | nil => simp [insertA, lookupA]
  | cons p rest ih =>
    by_cases h : p.1 = k
    · simp [insertA, h, lookupA]
    · simp [insertA, h, lookupA, ih]

theorem lookupA_insertA_ne {κ ν : Type} [DecidableEq κ]
    (l : List (κ × ν)) (k k2 : κ) (v : ν) (hne : k ≠ k2) :
    lookupA (insertA l k v) k2 = lookupA l k2 := by
  induction l with
  | nil => simp [insertA, lookupA, hne]
  | cons p rest ih =>
    by_cases h : p.1 = k
    · simp [insertA, h, lookupA, hne]
    · simp [insertA, h, lookupA, ih]

/-- One `Rc` clone: the strong count at address `a` increments. -/
def bumpRc (rc : List Nat) (a : Nat) : List Nat :=
  match rc.get? a with
  | some n => rc.set a (n + 1)
  | none => rc

/-- Dropping one share of the object at address `a`: the strong count
decrements; if it reaches zero the object is deallocated and its destructor
runs. -/
def dropShare {α : Type} (st : RumState α) (a : Nat) : RumState α :=
  match st.rc.get? a with
  | some (n + 1) =>
    if n = 0 then
      { st with rc := st.rc.set a 0, heap := st.heap.set a none,
                dropcount := st.dropcount + 1 }
    else { st with rc := st.rc.set a n }
  | _ => st

/-- `LuaPtr::borrow_mut` followed by a write through it. -/
def writeObj {α : Type} (st : RumState α) (p : LuaPtr) (v : α) : RumState α :=
  { st with heap := st.heap.set p.addr (some v) }

/-- `LuaPtr::borrow`: read the shared object. -/
def readObj {α : Type} (st : RumState α) (p : LuaPtr) : Option α :=
  (st.heap.get? p.addr).join

/-- Result of `RumLua::push`: the new state, or a Rust panic. -/
inductive PushOut (α : Type)
  | ok (st : RumState α)
  | panic
deriving DecidableEq

/-- Model of `RumLua::push` (lib.rs:298-304).  A fresh userdata is
allocated, `Some(Box::new((*objp).clone()))` is written into it (the clone
increments the `Rc` count), and the metatable registered for `T`'s
`TypeId` is attached.  `self.types_id_to_str[&id]` panics if the type was
never registered. -/
def push {α : Type} (st : RumState α) (tid : TypeId) (objp : LuaPtr) :
    PushOut α :=
  match lookupA st.typesIdToStr tid with
  | none => .panic
  | some name =>
    .ok { st with
            rc := bumpRc st.rc objp.addr,
            slots := st.slots ++ [{ mt := some name,
                                    content := some ⟨tid, objp⟩ }] }

/-- Result of `RumLua::get`: a fresh clone of the handle plus the state (the
clone bumps the count); the recoverable stack error; a Rust panic; or
undefined behaviour. -/
inductive GetOut (α : Type)
  | ok (p : LuaPtr) (st : RumState α)
  | errRes (msg : String)
  | panicked (msg : String)
  | ub
deriving DecidableEq

/-- Model of `RumLua::get` (lib.rs:305-322).  The code panics when `T` is
unregistered, asks `test_userdata_typed::<Box<Any>>` for the value at
`index` (which succeeds iff that value is a userdata whose metatable is the
one registered for `T`), downcasts to `LuaPtr<T>` and clones on success.

Note the type mismatch in the source: `push` and `generic_gc` treat the
userdata memory as `Option<Box<Any>>`, but `get` reads it as a bare
`Box<Any>`.  Thanks to `Option`'s null-pointer niche this coincides with
the box while the slot is `Some`; once `generic_gc` has swapped the slot to
`None` the same read reinterprets a null/invalid pointer as a live box and
the subsequent downcast is undefined behaviour, modelled as `.ub`. -/
def get {α : Type} (st : RumState α) (tid : TypeId) (index : Nat) :
    GetOut α :=
  match lookupA st.typesIdToStr tid with
  | none => .panicked "Unknown type!"
  | some name =>
    match st.slots.get? index with
    | none => .errRes "Error getting object from stack"
    | some slot =>
      if slot.mt = some name then
        match slot.content with
        | some bx =>
          if bx.dynId = tid then
            .ok bx.ptr { st with rc := bumpRc st.rc bx.ptr.addr }
          else .panicked "downcast error"
        | none => .ub
      else .errRes "Error getting object from stack"

/-- Result of `generic_gc`: the new state, the Lua-level return count
(always `Ok(0)`), and whether the mismatch message was printed; or a Rust
panic from the registry lookup. -/
inductive GcOut (α : Type)
  | ok (st : RumState α) (ret : Nat) (logged : Bool)
  | panicked
deriving DecidableEq

/-- Model of `generic_gc::<T>` (lib.rs:326-340), invoked by the collector
with the dying userdata as argument 1; `idx` is that userdata's position.
The registry lookup `rl.types_id_to_str[&id]` panics if `T` is
unregistered.  If the userdata's metatable does not match the registered
name, the function prints a message and returns `Ok(0)`.  Otherwise it
swaps the slot's `Option<Box<Any>>` with `None`, dropping the extracted
share (if any), and returns `Ok(0)`. -/
def generic_gc {α : Type} (st : RumState α) (tid : TypeId) (idx : Nat) :
    GcOut α :=
  match lookupA st.typesIdToStr tid with
  | none => .panicked
  | some name =>
    match st.slots.get? idx with
    | some slot =>
      if slot.mt = some name then
        let st1 := { st with slots := st.slots.set idx { slot with content := none } }
        match slot.content with
        | some bx => .ok (dropShare st1 bx.ptr.addr) 0 false
        | none => .ok st1 0 false
      else .ok st 0 true
    | none => .ok st 0 true

/-- The `logged` component of a `generic_gc` outcome. -/
def gcLogged {α : Type} : GcOut α → Option Bool
  | .ok _ _ logged => some logged
  | .panicked => none

/-- Result of `RumLua::register_type`: the new state, or a Rust panic. -/
inductive RegOut (α : Type)
  | ok (st : RumState α)
  | panicked (msg : String)
deriving DecidableEq

/-- Model of the registry bookkeeping of `RumLua::register_type`
(lib.rs:260-283): panic iff the *name* is already in `types_str_to_id`;
otherwise insert into both maps (`HashMap::insert`, which silently replaces
an existing binding of the same `TypeId`).  The metatable the function also
builds is modelled separately (`buildMetatable` below). -/
def register_type {α : Type} (st : RumState α) (mt_name : String)
    (tid : TypeId) : RegOut α :=
  match lookupA st.typesStrToId mt_name with
  | some _ => .panicked ("Illegally re-registered type. " ++ mt_name)
  | none =>
    .ok { st with
            typesStrToId := insertA st.typesStrToId mt_name tid,
            typesIdToStr := insertA st.typesIdToStr tid mt_name }

/-! ### Metatable construction (`register_type`, lib.rs:269-279)

A small model of the Lua stack/table operations `register_type` issues while
building the metatable: `luaL_newmetatable`, `_push_closure`, and
`lua_setfield`.  Tables live in a table heap; the stack holds references.
`_push_closure` is modelled by its net effect — it leaves a single value on
the stack, the shim-wrapped closure carrying the native function and the
name it was registered under. -/

/-- The native function a closure wraps: the generic finalizer of a type,
or an ordinary callback (identified by an abstract id). -/
inductive NativeFn
  | genericGcFn (tid : TypeId)
  | fn (fid : Nat)
deriving DecidableEq, Repr

/-- A value of the metatable-construction machine. -/
inductive MVal
  | closure (f : NativeFn) (name : String)
  | tableRef (t : Nat)
deriving DecidableEq, Repr

/-- A Lua table, as a string-keyed association list. -/
abbrev LuaTable := List (String × MVal)

/-- Engine state during metatable construction: the Lua stack (top last),
the table heap, and the `luaL_newmetatable` registry (name → table id). -/
structure MTState where
  stack : List MVal
  tables : List LuaTable
  registry : List (String × Nat)
deriving DecidableEq

/-- `luaL_newmetatable(name)`: if the registry already has the name, push
the existing table; otherwise allocate a fresh empty table, register it
under the name, and push it. -/
def newMetatable (s : MTState) (name : String) : MTState :=
  match lookupA s.registry name with
  | some t => { s with stack := s.stack ++ [.tableRef t] }
  | none =>
    { s with tables := s.tables ++ [[]],
             registry := (name, s.tables.length) :: s.registry,
             stack := s.stack ++ [.tableRef s.tables.length] }

/-- Net effect of `RumLua::_push_closure(f, name)` (lib.rs:246-259): the
shim-wrapped closure over `f` and `name` is left on the stack. -/
def pushClosure (s : MTState) (f : NativeFn) (name : String) : MTState :=
  { s with stack := s.stack ++ [.closure f name] }

/-- `lua_setfield(idx, k)`: with `v` the top of the stack and `t` the table
at (possibly negative) index `idx` — resolved against the stack *including*
`v` — set `t[k] = v` and pop `v`.  `none` when the index is invalid or does
not hold a table. -/
def setField (s : MTState) (idx : Int) (k : String) : Option MTState :=
  match s.stack.getLast? with
  | none => none
  | some v =>
    let len : Int := s.stack.length
    let a : Int := if idx < 0 then len + idx + 1 else idx
    if 1 ≤ a ∧ a ≤ len then
      match s.stack.get? (a.toNat - 1) with
      | some (.tableRef t) =>
        match s.tables.get? t with
        | some tb =>
          some { s with stack := s.stack.dropLast,
                        tables := s.tables.set t (insertA tb k v) }
        | none => none
      | _ => none
    else none

/-- The `for &(name, f) in typeinfo.methods` loop of `register_type`
(lib.rs:274-277): for each method, `_push_closure(f, name)` then
`set_field(-2, name)`. -/
def addMethods (s : MTState) : List (String × Nat) → Option MTState
  | [] => some s
  | (name, f) :: rest =>
    match setField (pushClosure s (.fn f) name) (-2) name with
    | some s2 => addMethods s2 rest
    | none => none

/-- The metatable-building portion of `RumLua::register_type`
(lib.rs:269-279): `new_metatable(mt_name)`; `_push_closure(generic_gc::<T>,
"__gc")` and `set_field(-2, "__gc")`; the method loop; and finally
`set_field(-1, "__index")`, which sets the metatable as its own `__index`
and pops it. -/
def buildMetatable (s : MTState) (mt_name : String) (tid : TypeId)
    (methods : List (String × Nat)) : Option MTState :=
  let s1 := newMetatable s mt_name
  match setField (pushClosure s1 (.genericGcFn tid) "__gc") (-2) "__gc" with
  | none => none
  | some s2 =>
    match addMethods s2 methods with
    | none => none
    | some s3 => setField s3 (-1) "__index"

/-! ### Protected execution (`run_loaded_lua`, `do_string`, `do_file`)

A model of the Lua stack during `RumLua::run_loaded_lua` (lib.rs:134-158).
The stack holds the loaded chunk (whose behaviour when called is either a
list of result values or a raised error message), the `debug` table and its
`traceback` field, strings, and opaque bystander values. -/

/-- Behaviour of a loaded chunk when called. -/
inductive ChunkBeh
  | ok (results : List LuaVal)
  | err (msg : String)
deriving DecidableEq, Repr

/-- A value on the Lua stack during protected execution. -/
inductive LV
  | debugTable
  | traceback
  | chunk (b : ChunkBeh)
  | val (v : LuaVal)
  | other (n : Nat)
deriving DecidableEq, Repr

/-- Resolve a (possibly negative) Lua stack index to a 1-based absolute
position; `none` when out of range. -/
def resolveIdx (len : Nat) (idx : Int) : Option Nat :=
  let a : Int := if idx < 0 then (len : Int) + idx + 1 else idx
  if 1 ≤ a ∧ a ≤ (len : Int) then some a.toNat else none

/-- `lua_remove(idx)`: delete the element at `idx`, shifting the ones above
down.  `none` on an invalid index (API misuse / undefined behaviour). -/
def luaRemove (stack : List LV) (idx : Int) : Option (List LV) :=
  match resolveIdx stack.length idx with
  | some a => some (stack.take (a - 1) ++ stack.drop a)
  | none => none

/-- `lua_rotate(-(k), 1)`: rotate the top `k` elements one position toward
the top (the top element moves to the bottom of the window). -/
def rot1 (stack : List LV) (k : Nat) : List LV :=
  let pre := stack.take (stack.length - k)
  let seg := stack.drop (stack.length - k)
  match seg.getLast? with
  | some v => pre ++ v :: seg.dropLast
  | none => stack

/-- Adjust a result list to exactly `numResults` values, padding with nils
(`lua_pcall` with a fixed result count). -/
def adjustResults (res : List LuaVal) (numResults : Nat) : List LV :=
  ((res.take numResults).map LV.val) ++
    List.replicate (numResults - res.length) (LV.val .nil)

/-- `lua_pcall(numArgs, numResults, msgh)`: the called function sits below
the top `numArgs` arguments.  On success the function and arguments are
replaced by the adjusted results.  On a raised error they are replaced by
the single error object produced by the message handler at position `msgh`
(here always `debug.traceback`, which returns the message augmented with a
backtrace; the appended backtrace text is irrelevant to every claim and is
not modelled, so the error object is the message itself).  `none` when the
value being called is not a chunk or `msgh` does not hold the handler. -/
def luaPcall (stack : List LV) (numArgs numResults : Nat) (msgh : Nat) :
    Option (Bool × List LV) :=
  let len := stack.length
  match stack.get? (len - numArgs - 1) with
  | some (.chunk b) =>
    let base := stack.take (len - numArgs - 1)
    match b with
    | .ok res => some (true, base ++ adjustResults res numResults)
    | .err m =>
      match stack.get? (msgh - 1) with
      | some .traceback => some (false, base ++ [.val (.str m)])
      | _ => none
  | _ => none

/-- Model of `RumLua::run_loaded_lua` (lib.rs:134-158), faithful to its
operation sequence: `get_global("debug")`; `get_field(-1, "traceback")`;
`remove(-2)`; `msgh_pos = get_top() - 1 - num_args`; `rotate(-2-num_args,
1)`; `pcall(num_args, num_results, msgh_pos)`; then on success
`remove(msgh_pos)`, and on failure `remove(-3)` followed by `to_str(-1)`.
Returns the host-level result and the final stack; `none` when an engine
operation is invoked on an invalid index (API misuse). -/
def run_loaded_lua (stack0 : List LV) (numArgs numResults : Nat) :
    Option (Except String Unit × List LV) :=
  let s1 := stack0 ++ [.debugTable]
  let s2 := s1 ++ [.traceback]
  match luaRemove s2 (-2) with
  | none => none
  | some s3 =>
    let msghPos := s3.length - 1 - numArgs
    let s4 := rot1 s3 (2 + numArgs)
    match luaPcall s4 numArgs numResults msghPos with
    | none => none
    | some (true, s5) =>
      match luaRemove s5 (msghPos : Int) with
      | none => none
      | some s6 => some (.ok (), s6)
    | some (false, s5) =>
      match luaRemove s5 (-3) with
      | none => none
      | some s6 =>
        match s6.getLast? with
        | some (.val (.str m)) =>
          some (.error ("Error running Lua: " ++ m), s6)
        | _ => some (.error "Error loading string", s6)

/-- Result of loading a chunk (`load_string` / `load_file`). -/
inductive LoadResult
  | ok (c : ChunkBeh)
  | synErr (msg : String)
deriving DecidableEq, Repr

/-- What `RumLua::do_string` hands back to the host: it returns `()` — the
only observable outputs are the lines it printed — or it panics. -/
inductive DoStringOut
  | ret (printed : List String)
  | panicked
deriving DecidableEq, Repr

/-- Model of `RumLua::do_string` (lib.rs:172-191).  On a load (syntax)
error it *prints* the diagnostic and returns `()`.  On a successful load it
calls `run_loaded_lua(0, 0).unwrap()`, which panics if the chunk's run
fails; an invalid engine-index operation inside `run_loaded_lua` likewise
aborts.  On success it clears the stack and returns `()`. -/
def do_string (prior : List LV) (load : LoadResult) : DoStringOut :=
  match load with
  | .synErr m => .ret ["Syntax error loading string: " ++ m]
  | .ok c =>
    match run_loaded_lua (prior ++ [.chunk c]) 0 0 with
    | some (.ok _, _) => .ret []
    | some (.error _, _) => .panicked
    | none => .panicked

/-- Model of `RumLua::do_file` (lib.rs:193-212): a load failure returns
`Err("Syntax error loading file: …")`, a run failure propagates
`run_loaded_lua`'s error via `try!`, success clears the stack and returns
`Ok(())`. -/
def do_file (prior : List LV) (load : LoadResult) :
    Option (Except String Unit) :=
  match load with
  | .synErr m => some (.error ("Syntax error loading file: " ++ m))
  | .ok c =>
    match run_loaded_lua (prior ++ [.chunk c]) 0 0 with
    | some (.ok _, _) => some (.ok ())
    | some (.error e, _) => some (.error e)
    | none => none

/-! ## Claim theorems -/

/-- **C3.** For every invocation of a registered native function's
trampoline: if the native function returns `Ok(n)` (having pushed at least
`n` values), the trampoline returns `n + 1` Lua values, `true` rotated
beneath the `n` already-pushed results; if it returns `Err(e)`, the partial
stack effects are discarded and it returns exactly the 2 values `false`
and `e`'s description string. -/
theorem claim_C3 (pushed : List LuaVal) :
    (∀ n, n ≤ pushed.length →
      lua_func_wrapper pushed (.ok n) = .boolV true :: lastN pushed n ∧
      (lua_func_wrapper pushed (.ok n)).length = n + 1) ∧
    (∀ e, lua_func_wrapper pushed (.error e) =
        [.boolV false, .str e.description] ∧
      (lua_func_wrapper pushed (.error e)).length = 2) := by
  constructor
  · intro n hn
    refine ⟨rfl, ?_⟩
    simp [lua_func_wrapper, lastN, Nat.sub_sub_self hn]
  · intro e
    exact ⟨rfl, rfl⟩

theorem claim_C3_witness :
    1 ≤ [LuaVal.num 7].length ∧
    (lua_func_wrapper [LuaVal.num 7] (.ok 1) =
        .boolV true :: lastN [LuaVal.num 7] 1 ∧
      (lua_func_wrapper [LuaVal.num 7] (.ok 1)).length = 1 + 1) :=
  ⟨by decide, (claim_C3 [LuaVal.num 7]).1 1 (by decide)⟩

/-- **C2.** A native function registered under `fname` that returns
`Err(e)` surfaces, through the bootstrap shim, as a raised error whose
message is `"Calling " ++ fname ++ ":\n" ++ e.description` prefixed with
the position of the caller's stack frame (stack level 2; empty when the
caller is a C function such as `pcall`); in particular
`pcall(funcs.fail)` on a native function failing with `"foo"` yields
`(false, "Calling fail:\nfoo")`.  On `Ok` all success values pass through
unchanged. -/
theorem claim_C2 (fname : String) (e : LErr) (pushed : List LuaVal) :
    (∀ where2, wrappedCall fname where2 pushed (.error e) =
      some (.raised (.str
        (where2 ++ "Calling " ++ fname ++ ":\n" ++ e.description)))) ∧
    pcallValues (wrappedCall fname "" pushed (.error e)) =
      some [.boolV false,
            .str ("" ++ "Calling " ++ fname ++ ":\n" ++ e.description)] ∧
    (∀ where2 n, n ≤ pushed.length →
      wrappedCall fname where2 pushed (.ok n) =
        some (.values (lastN pushed n))) := by
  refine ⟨fun where2 => rfl, rfl, fun where2 n _ => rfl⟩

theorem claim_C2_witness :
    (0 ≤ ([] : List LuaVal).length ∧
      wrappedCall "fail" "" [] (.ok 0) = some (.values (lastN [] 0))) ∧
    pcallValues (wrappedCall "fail" "" [] (.error ⟨"foo"⟩)) =
      some [.boolV false, .str ("" ++ "Calling " ++ "fail" ++ ":\n" ++ "foo")] :=
  ⟨⟨by decide, (claim_C2 "fail" ⟨"foo"⟩ []).2.2 "" 0 (by decide)⟩,
   (claim_C2 "fail" ⟨"foo"⟩ []).2.1⟩

/-- **C10.** For a type whose identity was never registered, `push` panics
(the `self.types_id_to_str[&id]` indexing aborts) instead of returning a
recoverable error: registration is a hard precondition of `push`. -/
theorem claim_C10 {α : Type} (st : RumState α) (tid : TypeId) (p : LuaPtr)
    (hunreg : lookupA st.typesIdToStr tid = none) :
    push st tid p = .panic := by
  simp [push, hunreg]

/-- The freshly constructed bridge: no types registered yet. -/
def emptyNatSt : RumState Nat :=
  { typesStrToId := [], typesIdToStr := [], slots := [], rc := [],
    heap := [], dropcount := 0 }

theorem claim_C10_witness :
    lookupA emptyNatSt.typesIdToStr 0 = none ∧
    push emptyNatSt 0 ⟨0⟩ = .panic :=
  ⟨rfl, claim_C10 emptyNatSt 0 ⟨0⟩ rfl⟩

/-- A bridge state in which type id 0 is registered as `"T"` and the single
boundary slot has already been emptied by the finalizer (its one share was
dropped, destroying the object). -/
def finalizedSt : RumState Nat :=
  { typesStrToId := [("T", 0)], typesIdToStr := [(0, "T")],
    slots := [{ mt := some "T", content := none }],
    rc := [0], heap := [none], dropcount := 1 }

/-- **C4**, evaluated at the failing input.  The claim says `get::<T>` on a
slot already emptied by finalization returns a recoverable
`ObjectUnavailable`-style error; the repository's own test
`lua_gc_resurrect` expects the message "Called method on GCed object".
In fact `get` reads the userdata's `Option<Box<Any>>` memory as a bare
`Box<Any>` and downcasts it, which on an emptied (`None`) slot
reinterprets a null pointer as a live box: undefined behaviour, not an
error return.  (On a metatable *mismatch* the recoverable error is
returned, second conjunct.) -/
theorem claim_C4_bug :
    get finalizedSt 0 0 = .ub ∧
    get { finalizedSt with
            slots := [{ mt := some "U", content := some ⟨0, ⟨0⟩⟩ }] } 0 0 =
      .errRes "Error getting object from stack" := by
  exact ⟨by decide, by decide⟩

/-- **C7**, evaluated at the failing input.  The claim says the
`debug.traceback` message handler is removed from the stack on both the
success and the failure path of `run_loaded_lua`.  On the failure path the
code executes `remove(-3)` while the stack is `[..., handler, errobj]` —
the handler sits at `-2` — so the element *below* the handler is removed
and the handler is left on the stack (first conjunct: final stack still
holds `LV.traceback`).  With nothing below the handler (the `do_string` /
`do_file` call shape), `remove(-3)` is an invalid stack index (second
conjunct).  The success path does remove the handler (third conjunct). -/
theorem claim_C7_bug :
    (run_loaded_lua [LV.other 0, LV.chunk (.err "boom")] 0 0 =
      some (.error "Error running Lua: boom",
            [LV.traceback, LV.val (.str "boom")]) ∧
      LV.traceback ∈ [LV.traceback, LV.val (.str "boom")]) ∧
    run_loaded_lua [LV.chunk (.err "boom")] 0 0 = none ∧
    run_loaded_lua [LV.other 0, LV.chunk (.ok [])] 0 0 =
      some (.ok (), [LV.other 0]) := by
  exact ⟨⟨rfl, by decide⟩, rfl, rfl⟩

/-- **C8**, evaluated at the failing input.  The claim says `do_string` and
`do_file` both return `Result<(), Error>` carrying the engine diagnostic.
`do_file` does (third conjunct), but `do_string` returns `()`: on a load
(syntax) failure it merely prints the diagnostic (first conjunct), and on a
runtime failure it calls `.unwrap()` and panics (second conjunct).  The
repository's own tests call `do_string(...).unwrap()` /
`.unwrap_err()`, which requires the `Result` return the claim states. -/
theorem claim_C8_bug :
    do_string [] (.synErr "nope") =
      .ret ["Syntax error loading string: nope"] ∧
    do_string [] (.ok (.err "boom")) = .panicked ∧
    do_file [] (.synErr "nope") =
      some (.error "Syntax error loading file: nope") := by
  exact ⟨by decide, by decide, rfl⟩

/-- **C1.** For a registered type (identity `tid`, valid handle `h1`),
`push` succeeds, and `get` at the position of the new slot returns a handle
to the *same* underlying object (`p.addr = h1.addr`); a mutation made
through either handle is visible through the other. -/
theorem claim_C1 {α : Type} (st : RumState α) (tid : TypeId) (h1 : LuaPtr)
    (nm : String) (hreg : lookupA st.typesIdToStr tid = some nm)
    (haddr : h1.addr < st.heap.length) :
    ∃ st1 p st2,
      push st tid h1 = .ok st1 ∧
      get st1 tid st.slots.length = .ok p st2 ∧
      p.addr = h1.addr ∧
      ∀ v, readObj (writeObj st2 p v) h1 = some v ∧
           readObj (writeObj st2 h1 v) p = some v := by
  refine ⟨{ st with rc := bumpRc st.rc h1.addr,
                    slots := st.slots ++
                      [{ mt := some nm, content := some ⟨tid, h1⟩ }] },
          h1,
          ?_, ?_, ?_, rfl, ?_⟩
  · exact { st with
              rc := bumpRc (bumpRc st.rc h1.addr) h1.addr,
              slots := st.slots ++
                [{ mt := some nm, content := some ⟨tid, h1⟩ }] }
  · simp [push, hreg]
  · simp [get, hreg, get?_concat_length]
  · intro v
    have hset : (st.heap.set h1.addr (some v))[h1.addr]? = some (some v) := by
      rw [← List.get?_eq_getElem?]
      exact get?_set_self _ _ _ (by simpa using haddr)
    constructor <;> simp [readObj, writeObj, hset]

/-- A bridge state with type id 0 registered as `"T"` and one live heap
object at address 0 (one host-side share). -/
def oneObjSt : RumState Nat :=
  { typesStrToId := [("T", 0)], typesIdToStr := [(0, "T")],
    slots := [], rc := [1], heap := [some 5], dropcount := 0 }

theorem claim_C1_witness :
    (lookupA oneObjSt.typesIdToStr 0 = some "T" ∧
      (⟨0⟩ : LuaPtr).addr < oneObjSt.heap.length) ∧
    ∃ st1 p st2,
      push oneObjSt 0 ⟨0⟩ = .ok st1 ∧
      get st1 0 oneObjSt.slots.length = .ok p st2 ∧
      p.addr = (⟨0⟩ : LuaPtr).addr ∧
      ∀ v, readObj (writeObj st2 p v) ⟨0⟩ = some v ∧
           readObj (writeObj st2 ⟨0⟩ v) p = some v :=
  ⟨⟨by decide, by decide⟩, claim_C1 oneObjSt 0 ⟨0⟩ "T" (by decide) (by decide)⟩

/-- **C5 counterexample.**  The claim says a further `generic_gc`
invocation on an already-empty slot "logs and returns success".  On an
already-empty slot whose metatable still matches, the code takes the
`Some(p_ref)` branch and silently swaps `None` for `None`: it returns
success but prints nothing (the `println!` runs only in the unmatched
branch). -/
theorem claim_C5_cex :
    generic_gc finalizedSt 0 0 = .ok finalizedSt 0 false ∧
    gcLogged (generic_gc finalizedSt 0 0) = some false := by
  exact ⟨by decide, by decide⟩

/-- **C5 (amended).**  The generic finalizer run on a matching slot
holding the last share swaps the slot's content to `None`, dropping the
share (so the destructor runs exactly once: `dropcount` increments by 1);
any further invocation on the now-empty slot *silently* returns success,
leaving the slot `None`; an invocation on an *unmatched* slot logs and
returns success, changing nothing. -/
theorem claim_C5 {α : Type} (st : RumState α) (tid : TypeId) (idx : Nat)
    (nm : String) (slot : Slot) (bx : ErasedBox)
    (hreg : lookupA st.typesIdToStr tid = some nm)
    (hslot : st.slots.get? idx = some slot)
    (hmt : slot.mt = some nm)
    (hcontent : slot.content = some bx)
    (hrc : st.rc.get? bx.ptr.addr = some 1) :
    ∃ st1,
      generic_gc st tid idx = .ok st1 0 false ∧
      st1.dropcount = st.dropcount + 1 ∧
      st1.slots.get? idx = some { slot with content := none } ∧
      generic_gc st1 tid idx = .ok st1 0 false ∧
      ∀ idx2 s2, st.slots.get? idx2 = some s2 → s2.mt ≠ some nm →
        generic_gc st tid idx2 = .ok st 0 true := by
  obtain ⟨smt, scont⟩ := slot
  have hmt2 : smt = some nm := hmt
  have hcontent2 : scont = some bx := hcontent
  subst hmt2
  subst hcontent2
  have hidx : idx < st.slots.length := by
    by_contra hge
    rw [List.get?_eq_none.mpr (Nat.le_of_not_lt hge)] at hslot
    cases hslot
  have hslot2 : st.slots[idx]? = some ⟨some nm, some bx⟩ := by
    rw [← List.get?_eq_getElem?]
    exact hslot
  have hrc2 : st.rc[bx.ptr.addr]? = some 1 := by
    rw [← List.get?_eq_getElem?]
    exact hrc
  refine ⟨{ st with
              slots := st.slots.set idx ⟨some nm, none⟩,
              rc := st.rc.set bx.ptr.addr 0,
              heap := st.heap.set bx.ptr.addr none,
              dropcount := st.dropcount + 1 },
          ?_, rfl, ?_, ?_, ?_⟩
  · simp [generic_gc, hreg, hslot2, dropShare, hrc2]
  · exact get?_set_self _ _ _ hidx
  · have h3 : (st.slots.set idx (⟨some nm, none⟩ : Slot))[idx]? =
        some ⟨some nm, none⟩ := by
      rw [← List.get?_eq_getElem?]
      exact get?_set_self _ _ _ hidx
    have h4 : (st.slots.set idx (⟨some nm, none⟩ : Slot)).set idx
        ⟨some nm, none⟩ = st.slots.set idx ⟨some nm, none⟩ :=
      set_get?_self _ _ _ (get?_set_self _ _ _ hidx)
    simp [generic_gc, hreg, h3, h4]
  · intro idx2 s2 h2 hne
    have h2b : st.slots[idx2]? = some s2 := by
      rw [← List.get?_eq_getElem?]
      exact h2
    simp [generic_gc, hreg, h2b, hne]

/-- A bridge state with type id 0 registered as `"T"`, one boundary slot
holding the only share of the object at address 0. -/
def lastShareSt : RumState Nat :=
  { typesStrToId := [("T", 0)], typesIdToStr := [(0, "T")],
    slots := [{ mt := some "T", content := some ⟨0, ⟨0⟩⟩ }],
    rc := [1], heap := [some 5], dropcount := 0 }

theorem claim_C5_witness :
    (lookupA lastShareSt.typesIdToStr 0 = some "T" ∧
      lastShareSt.slots.get? 0 =
        some { mt := some "T", content := some ⟨0, ⟨0⟩⟩ } ∧
      lastShareSt.rc.get? 0 = some 1) ∧
    ∃ st1,
      generic_gc lastShareSt 0 0 = .ok st1 0 false ∧
      st1.dropcount = lastShareSt.dropcount + 1 ∧
      st1.slots.get? 0 =
        some { mt := some "T",
               content := (none : Option ErasedBox) } ∧
      generic_gc st1 0 0 = .ok st1 0 false ∧
      ∀ idx2 s2, lastShareSt.slots.get? idx2 = some s2 →
        s2.mt ≠ some "T" → generic_gc lastShareSt 0 idx2 =
          .ok lastShareSt 0 true :=
  ⟨⟨by decide, by decide, by decide⟩,
   claim_C5 lastShareSt 0 0 "T"
     { mt := some "T", content := some ⟨0, ⟨0⟩⟩ } ⟨0, ⟨0⟩⟩
     (by decide) (by decide) (by decide) (by decide) (by decide)⟩

/-- A bridge with type id 0 already registered under the name `"a"`. -/
def regASt : RumState Nat :=
  { typesStrToId := [("a", 0)], typesIdToStr := [(0, "a")], slots := [],
    rc := [], heap := [], dropcount := 0 }

/-- Whether a `register_type` outcome is the panic. -/
def isRegPanic {α : Type} : RegOut α → Bool
  | .panicked _ => true
  | .ok _ => false

/-- **C6 counterexample.**  The claim says registering a *type identity*
that is already registered (under a different name) aborts before
overwriting.  `register_type` only checks `types_str_to_id` for the *name*:
re-registering identity 0 (already bound to `"a"`) under the fresh name
`"b"` does not panic, and `HashMap::insert` silently overwrites the
identity→name binding. -/
theorem claim_C6_cex :
    register_type regASt "b" 0 =
      .ok { regASt with typesStrToId := [("a", 0), ("b", 0)],
                        typesIdToStr := [(0, "b")] } ∧
    isRegPanic (register_type regASt "b" 0) = false := by
  exact ⟨by decide, by decide⟩

/-- **C6 (amended).**  `register_type` panics — before touching either
registry map — iff the *name* is already registered; with a fresh name it
always succeeds, (over)writing the identity→name binding, so a type
identity already registered under a different name is silently
re-registered rather than aborting. -/
theorem claim_C6 {α : Type} (st : RumState α) (nm : String) (tid : TypeId) :
    (lookupA st.typesStrToId nm ≠ none →
      register_type st nm tid =
        .panicked ("Illegally re-registered type. " ++ nm)) ∧
    (lookupA st.typesStrToId nm = none →
      ∃ st1, register_type st nm tid = .ok st1 ∧
        lookupA st1.typesIdToStr tid = some nm ∧
        lookupA st1.typesStrToId nm = some tid) := by
  constructor
  · intro hne
    match hl : lookupA st.typesStrToId nm with
    | some v => simp [register_type, hl]
    | none => exact absurd hl hne
  · intro hnone
    refine ⟨{ st with
                typesStrToId := insertA st.typesStrToId nm tid,
                typesIdToStr := insertA st.typesIdToStr tid nm },
            ?_, ?_, ?_⟩
    · simp [register_type, hnone]
    · exact lookupA_insertA_self _ _ _
    · exact lookupA_insertA_self _ _ _

theorem claim_C6_witness :
    (lookupA regASt.typesStrToId "a" ≠ none ∧
      register_type regASt "a" 1 =
        .panicked ("Illegally re-registered type. " ++ "a")) ∧
    (lookupA emptyNatSt.typesStrToId "a" = none ∧
      ∃ st1, register_type emptyNatSt "a" 0 = .ok st1 ∧
        lookupA st1.typesIdToStr 0 = some "a" ∧
        lookupA st1.typesStrToId "a" = some 0) :=
  ⟨⟨by decide, (claim_C6 regASt "a" 1).1 (by decide)⟩,
   ⟨by decide, (claim_C6 emptyNatSt "a" 0).2 (by decide)⟩⟩

/-! ### Invariant lemmas for the metatable construction -/

/-- Net effect of one loop step of `register_type`: with the metatable
reference on top of the stack, `_push_closure(f, k)` then
`set_field(-2, k)` stores the wrapped closure in the metatable and leaves
the stack unchanged. -/
theorem setField_step (base : List MVal) (tabs : List LuaTable)
    (reg : List (String × Nat)) (T : Nat) (tb : LuaTable)
    (f : NativeFn) (k : String) (htab : tabs.get? T = some tb) :
    setField (pushClosure ⟨base ++ [.tableRef T], tabs, reg⟩ f k) (-2) k =
      some ⟨base ++ [.tableRef T],
            tabs.set T (insertA tb k (.closure f k)), reg⟩ := by
  have hstack : (pushClosure ⟨base ++ [.tableRef T], tabs, reg⟩ f k).stack =
      (base ++ [.tableRef T]) ++ [.closure f k] := rfl
  have hlast : ((base ++ [MVal.tableRef T]) ++ [MVal.closure f k]).getLast? =
      some (.closure f k) := List.getLast?_concat _
  have hlen : ((base ++ [MVal.tableRef T]) ++ [MVal.closure f k]).length =
      base.length + 2 := by simp
  have hget : ((base ++ [MVal.tableRef T]) ++ [MVal.closure f k]).get?
      base.length = some (.tableRef T) := by
    rw [get?_append_left _ _ _ (by simp), get?_concat_length]
  have hdrop : ((base ++ [MVal.tableRef T]) ++ [MVal.closure f k]).dropLast =
      base ++ [.tableRef T] := List.dropLast_concat
  simp only [setField, hstack, hlast, hlen]
  have hval : (if (-2 : Int) < 0 then ((base.length + 2 : Nat) : Int) + -2 + 1 else -2) =
      (base.length : Int) + 1 := by norm_num
  rw [hval]
  have hc : (1 : Int) ≤ (base.length : Int) + 1 ∧
      (base.length : Int) + 1 ≤ ((base.length + 2 : Nat) : Int) := by
    constructor <;> omega
  rw [if_pos hc]
  have hidx2 : ((base.length : Int) + 1).toNat - 1 = base.length := by omega
  rw [hidx2, hget]
  simp only [pushClosure]
  rw [htab, hdrop]

/-- The table obtained by running the method loop over table `tb`. -/
def mtFold (tb : LuaTable) (ms : List (String × Nat)) : LuaTable :=
  ms.foldl (fun t nf => insertA t nf.1 (.closure (.fn nf.2) nf.1)) tb

/-- The method loop of `register_type` leaves the metatable reference on
the stack and folds the methods into the registered table. -/
theorem addMethods_spec (ms : List (String × Nat)) (base : List MVal)
    (tabs : List LuaTable) (reg : List (String × Nat)) (T : Nat)
    (tb : LuaTable) (htab : tabs.get? T = some tb) :
    addMethods ⟨base ++ [.tableRef T], tabs, reg⟩ ms =
      some ⟨base ++ [.tableRef T], tabs.set T (mtFold tb ms), reg⟩ := by
  induction ms generalizing tabs tb with
  | nil =>
    simp only [addMethods, mtFold, List.foldl_nil]
    rw [set_get?_self _ _ _ htab]
  | cons nf rest ih =>
    obtain ⟨n, f⟩ := nf
    have hT : T < tabs.length := by
      by_contra hge
      rw [List.get?_eq_none.mpr (Nat.le_of_not_lt hge)] at htab
      cases htab
    have hstep := setField_step base tabs reg T tb (.fn f) n htab
    simp only [addMethods, hstep]
    rw [ih (tabs.set T (insertA tb n (.closure (.fn f) n)))
        (insertA tb n (.closure (.fn f) n)) (get?_set_self _ _ _ hT)]
    rw [List.set_set]
    rfl

/-- Net effect of the closing `set_field(-1, "__index")` of
`register_type`: the metatable is stored as its own `__index` and popped
from the stack. -/
theorem setField_index (base : List MVal) (tabs : List LuaTable)
    (reg : List (String × Nat)) (T : Nat) (tb : LuaTable)
    (htab : tabs.get? T = some tb) :
    setField ⟨base ++ [.tableRef T], tabs, reg⟩ (-1) "__index" =
      some ⟨base, tabs.set T (insertA tb "__index" (.tableRef T)), reg⟩ := by
  have hlast : (base ++ [MVal.tableRef T]).getLast? = some (.tableRef T) :=
    List.getLast?_concat _
  have hlen : (base ++ [MVal.tableRef T]).length = base.length + 1 := by simp
  have hget : (base ++ [MVal.tableRef T]).get? base.length =
      some (.tableRef T) := get?_concat_length _ _
  have hdrop : (base ++ [MVal.tableRef T]).dropLast = base :=
    List.dropLast_concat
  simp only [setField, hlast, hlen]
  have hval : (if (-1 : Int) < 0 then ((base.length + 1 : Nat) : Int) + -1 + 1 else -1) =
      (base.length : Int) + 1 := by norm_num
  rw [hval]
  have hc : (1 : Int) ≤ (base.length : Int) + 1 ∧
      (base.length : Int) + 1 ≤ ((base.length + 1 : Nat) : Int) := by
    constructor <;> omega
  rw [if_pos hc]
  have hidx2 : ((base.length : Int) + 1).toNat - 1 = base.length := by omega
  rw [hidx2, hget]
  dsimp only
  rw [htab, hdrop]

theorem mtFold_lookup_notin (tb : LuaTable) (ms : List (String × Nat))
    (k : String) (hk : k ∉ ms.map Prod.fst) :
    lookupA (mtFold tb ms) k = lookupA tb k := by
  induction ms generalizing tb with
  | nil => rfl
  | cons nf rest ih =>
    simp only [List.map_cons, List.mem_cons] at hk
    push_neg at hk
    simp only [mtFold, List.foldl_cons]
    rw [show rest.foldl (fun t nf => insertA t nf.1 (.closure (.fn nf.2) nf.1))
        (insertA tb nf.1 (.closure (.fn nf.2) nf.1)) =
        mtFold (insertA tb nf.1 (.closure (.fn nf.2) nf.1)) rest from rfl]
    rw [ih _ hk.2]
    exact lookupA_insertA_ne _ _ _ _ (fun h => hk.1 h.symm)

theorem mtFold_lookup_mem (tb : LuaTable) (ms : List (String × Nat))
    (nf : String × Nat) (hmem : nf ∈ ms)
    (hnodup : (ms.map Prod.fst).Nodup) :
    lookupA (mtFold tb ms) nf.1 = some (.closure (.fn nf.2) nf.1) := by
  induction ms generalizing tb with
  | nil => cases hmem
  | cons hd rest ih =>
    simp only [List.map_cons, List.nodup_cons] at hnodup
    simp only [mtFold, List.foldl_cons]
    rw [show rest.foldl (fun t nf => insertA t nf.1 (.closure (.fn nf.2) nf.1))
        (insertA tb hd.1 (.closure (.fn hd.2) hd.1)) =
        mtFold (insertA tb hd.1 (.closure (.fn hd.2) hd.1)) rest from rfl]
    rcases List.mem_cons.mp hmem with heq | hmem2
    · subst heq
      rw [mtFold_lookup_notin _ _ _ hnodup.1]
      exact lookupA_insertA_self _ _ _
    · exact ih _ hmem2 hnodup.2

/-- **C9.** `register_type(mt_name, methods)` on a fresh metatable name
(with well-formed methods: distinct names, none of them the reserved
`__gc` / `__index` keys) produces a registered metatable containing a
`__gc` entry bound to the generic finalizer for the type, one entry per
`(name, function)` pair of `methods`, and an `__index` entry equal to the
metatable itself. -/
theorem claim_C9 (s : MTState) (mt_name : String) (tid : TypeId)
    (methods : List (String × Nat))
    (hfresh : lookupA s.registry mt_name = none)
    (hnodup : (methods.map Prod.fst).Nodup)
    (hgc : "__gc" ∉ methods.map Prod.fst)
    (hidxm : "__index" ∉ methods.map Prod.fst) :
    ∃ s1 tbF,
      buildMetatable s mt_name tid methods = some s1 ∧
      lookupA s1.registry mt_name = some s.tables.length ∧
      s1.tables.get? s.tables.length = some tbF ∧
      lookupA tbF "__gc" = some (.closure (.genericGcFn tid) "__gc") ∧
      (∀ nf ∈ methods, lookupA tbF nf.1 =
        some (.closure (.fn nf.2) nf.1)) ∧
      lookupA tbF "__index" = some (.tableRef s.tables.length) := by
  have hT : s.tables.length < (s.tables ++ [[]]).length := by simp
  have htab0 : (s.tables ++ ([[]] : List LuaTable)).get? s.tables.length =
      some [] := get?_concat_length _ _
  have hnew : newMetatable s mt_name =
      ⟨s.stack ++ [.tableRef s.tables.length], s.tables ++ [[]],
       (mt_name, s.tables.length) :: s.registry⟩ := by
    simp [newMetatable, hfresh]
  have step1 := setField_step s.stack (s.tables ++ [[]])
      ((mt_name, s.tables.length) :: s.registry) s.tables.length []
      (.genericGcFn tid) "__gc" htab0
  have htab1 : ((s.tables ++ [[]]).set s.tables.length
        (insertA [] "__gc" (.closure (.genericGcFn tid) "__gc"))).get?
        s.tables.length =
      some (insertA [] "__gc" (.closure (.genericGcFn tid) "__gc")) :=
    get?_set_self _ _ _ hT
  have step2 := addMethods_spec methods s.stack
      ((s.tables ++ [[]]).set s.tables.length
        (insertA [] "__gc" (.closure (.genericGcFn tid) "__gc")))
      ((mt_name, s.tables.length) :: s.registry) s.tables.length
      (insertA [] "__gc" (.closure (.genericGcFn tid) "__gc")) htab1
  have htab2 : (((s.tables ++ [[]]).set s.tables.length
        (insertA [] "__gc" (.closure (.genericGcFn tid) "__gc"))).set
        s.tables.length
        (mtFold (insertA [] "__gc" (.closure (.genericGcFn tid) "__gc"))
          methods)).get? s.tables.length =
      some (mtFold (insertA [] "__gc" (.closure (.genericGcFn tid) "__gc"))
        methods) :=
    get?_set_self _ _ _ (by simp)
  have step3 := setField_index s.stack
      (((s.tables ++ [[]]).set s.tables.length
        (insertA [] "__gc" (.closure (.genericGcFn tid) "__gc"))).set
        s.tables.length
        (mtFold (insertA [] "__gc" (.closure (.genericGcFn tid) "__gc"))
          methods))
      ((mt_name, s.tables.length) :: s.registry) s.tables.length
      (mtFold (insertA [] "__gc" (.closure (.genericGcFn tid) "__gc"))
        methods) htab2
  refine ⟨⟨s.stack,
           (((s.tables ++ [[]]).set s.tables.length
             (insertA [] "__gc" (.closure (.genericGcFn tid) "__gc"))).set
             s.tables.length
             (mtFold (insertA [] "__gc"
               (.closure (.genericGcFn tid) "__gc")) methods)).set
             s.tables.length
             (insertA (mtFold (insertA [] "__gc"
                 (.closure (.genericGcFn tid) "__gc")) methods)
               "__index" (.tableRef s.tables.length)),
           (mt_name, s.tables.length) :: s.registry⟩,
          insertA (mtFold (insertA [] "__gc"
              (.closure (.genericGcFn tid) "__gc")) methods)
            "__index" (.tableRef s.tables.length),
          ?_, ?_, ?_, ?_, ?_, ?_⟩
  · simp only [buildMetatable]
    rw [hnew]
    rw [step1]
    dsimp only
    rw [step2]
    dsimp only
    exact step3
  · simp [lookupA]
  · exact get?_set_self _ _ _ (by simp)
  · rw [lookupA_insertA_ne _ _ _ _
        (by decide : ("__index" : String) ≠ "__gc")]
    rw [mtFold_lookup_notin _ _ _ hgc]
    exact lookupA_insertA_self _ _ _
  · intro nf hmem
    have h1 : nf.1 ∈ methods.map Prod.fst := List.mem_map_of_mem _ hmem
    have hne : ("__index" : String) ≠ nf.1 := by
      intro h
      rw [← h] at h1
      exact hidxm h1
    rw [lookupA_insertA_ne _ _ _ _ hne]
    exact mtFold_lookup_mem _ _ _ hmem hnodup
  · exact lookupA_insertA_self _ _ _

/-- The engine state at bridge construction time: empty stack, no tables,
empty metatable registry. -/
def emptyMT : MTState := { stack := [], tables := [], registry := [] }

theorem claim_C9_witness :
    (lookupA emptyMT.registry "TestMeth" = none ∧
      ((([("get", 0), ("set", 1)] : List (String × Nat)).map
        Prod.fst).Nodup ∧
      "__gc" ∉ ([("get", 0), ("set", 1)] : List (String × Nat)).map
        Prod.fst ∧
      "__index" ∉ ([("get", 0), ("set", 1)] : List (String × Nat)).map
        Prod.fst)) ∧
    ∃ s1 tbF,
      buildMetatable emptyMT "TestMeth" 0 [("get", 0), ("set", 1)] =
        some s1 ∧
      lookupA s1.registry "TestMeth" = some emptyMT.tables.length ∧
      s1.tables.get? emptyMT.tables.length = some tbF ∧
      lookupA tbF "__gc" = some (.closure (.genericGcFn 0) "__gc") ∧
      (∀ nf ∈ ([("get", 0), ("set", 1)] : List (String × Nat)),
        lookupA tbF nf.1 = some (.closure (.fn nf.2) nf.1)) ∧
      lookupA tbF "__index" = some (.tableRef emptyMT.tables.length) :=
  ⟨⟨by decide, by decide, by decide, by decide⟩,
   claim_C9 emptyMT "TestMeth" 0 [("get", 0), ("set", 1)]
     (by decide) (by decide) (by decide) (by decide)⟩

end NotRlua
